import Mathlib

/-!
# Wire-level command codec: the Open request/response pair

Shallow embedding of `src/protocol/src/commands/open.rs` from the
rabbitmq-stream-rust-client repository, together with the primitive codec
it is built on.  Byte streams are modelled as `List Nat` (each element one
octet); Rust strings are modelled by their UTF-8 byte sequences, so that
`String::len` is the list length.  Fallible decoding returns an explicit
result value; a Rust panic (an `unwrap` on `None`) is modelled by the
distinguished outcome `DecodeResult.panic`.
-/

/-- Modelled from the spec (section 7): the decode error taxonomy.
The source file only names `DecodeError` and the spec lists its
distinguished conditions: insufficient data for a declared field width,
invalid UTF-8 in a text field, an unrecognized response-code value,
an unrecognized command key, and payload not fully consumed.  Strings are
modelled as raw byte sequences, so the invalid-UTF-8 condition is never
produced here; it is kept for faithfulness to the taxonomy. -/
inductive DecodeError : Type where
  | insufficientData : DecodeError
  | invalidUtf8 : DecodeError
  | unknownResponseCode : Nat → DecodeError
  | unknownKey : Nat → DecodeError
  | payloadNotConsumed : DecodeError
deriving DecidableEq, Repr

/-- Outcome of running a decoder on a byte stream: success with the
unconsumed remainder and the decoded value, a typed decode error, or a
panic (the embedding of a Rust `unwrap` on `None`). -/
inductive DecodeResult (α : Type) : Type where
  | ok : List Nat → α → DecodeResult α
  | err : DecodeError → DecodeResult α
  | panic : DecodeResult α
deriving DecidableEq, Repr

/-- Big-endian bytes of a 16-bit unsigned write of `n` (the fixed-width
write keeps `n` modulo 2^16). -/
def u16BE (n : Nat) : List Nat :=
  [n / 256 % 256, n % 256]

/-- Big-endian bytes of a 32-bit unsigned write of `n` (the fixed-width
write keeps `n` modulo 2^32). -/
def u32BE (n : Nat) : List Nat :=
  [n / 16777216 % 256, n / 65536 % 256, n / 256 % 256, n % 256]

/-- Modelled from the spec (section 6): fixed-width unsigned integers are
read big-endian; reading past the end of the buffer is the
insufficient-data error.  This is the `read_u16` primitive. -/
def readU16 : List Nat → DecodeResult Nat
  | b1 :: b2 :: rest => .ok rest (b1 * 256 + b2)
  | _ => .err .insufficientData

/-- Modelled from the spec (section 6): the `read_u32` primitive used for
correlation identifiers and counts. -/
def readU32 : List Nat → DecodeResult Nat
  | b1 :: b2 :: b3 :: b4 :: rest =>
      .ok rest (b1 * 16777216 + b2 * 65536 + b3 * 256 + b4)
  | _ => .err .insufficientData

/-- Read exactly `n` raw bytes from the stream, failing with the
insufficient-data error when fewer remain. -/
def readBytes : Nat → List Nat → DecodeResult (List Nat)
  | 0, input => .ok input []
  | _ + 1, [] => .err .insufficientData
  | n + 1, b :: rest =>
      match readBytes n rest with
      | .ok remaining bs => .ok remaining (b :: bs)
      | .err e => .err e
      | .panic => .panic

/-- Modelled from the spec (section 4.1): text is a length field followed
by that many UTF-8 bytes, no terminator.  The length field is a 16-bit
fixed-width value; the all-ones value 65535 (the two's-complement -1) is
the sentinel for an absent (null) string, which is why the source's
`decode_str` hands back an optional value that `OpenCommand::decode`
unwraps. -/
def readStr (input : List Nat) : DecodeResult (Option (List Nat)) :=
  match readU16 input with
  | .ok rest len =>
      if len = 65535 then .ok rest none
      else
        match readBytes len rest with
        | .ok remaining bs => .ok remaining (some bs)
        | .err e => .err e
        | .panic => .panic
  | .err e => .err e
  | .panic => .panic

/-- Modelled from the spec (section 4.1): the text encoder writes the
16-bit length field and then the bytes themselves. -/
def encodeStr (s : List Nat) : List Nat :=
  u16BE s.length ++ s

/-- Modelled from the spec (sections 3 and 4.3): the closed, versioned
table of server-reported outcomes — success plus the named failure
reasons the spec lists.  The source file names only `ResponseCode::Ok`;
the numeric values are not fixed by the spec and are assigned here from 1
upward (success first). -/
inductive ResponseCode : Type where
  | Ok : ResponseCode
  | AccessRefused : ResponseCode
  | AuthenticationFailure : ResponseCode
  | EntityDoesNotExist : ResponseCode
deriving DecidableEq, Repr

/-- The numeric value assigned to each response code. -/
def ResponseCode.toCode : ResponseCode → Nat
  | .Ok => 1
  | .AccessRefused => 2
  | .AuthenticationFailure => 3
  | .EntityDoesNotExist => 4

/-- Partial inverse of `ResponseCode.toCode`: lookup in the closed table. -/
def responseCodeFromCode : Nat → Option ResponseCode
  | 1 => some .Ok
  | 2 => some .AccessRefused
  | 3 => some .AuthenticationFailure
  | 4 => some .EntityDoesNotExist
  | _ => none

/-- Modelled from the spec (section 4.3): encoding a response code is the
fixed-width 16-bit write of its assigned numeric value. -/
def ResponseCode.encode (c : ResponseCode) : List Nat :=
  u16BE c.toCode

/-- Modelled from the spec (section 4.3): the response code is decoded
from a 16-bit field against the closed table; an out-of-table value is
the hard `UnknownResponseCode` decode error, never a default. -/
def ResponseCode.decode (input : List Nat) : DecodeResult ResponseCode :=
  match readU16 input with
  | .ok rest c =>
      match responseCodeFromCode c with
      | some code => .ok rest code
      | none => .err (.unknownResponseCode c)
  | .err e => .err e
  | .panic => .panic

/-- Modelled from the spec (sections 4.1 and 6): a text-to-text mapping is
a 32-bit count field followed by that many (key, value) pairs, each
encoded as text.  The Rust `HashMap` is modelled as its list of entries
in iteration order. -/
def encodeMapEntries : List (List Nat × List Nat) → List Nat
  | [] => []
  | (k, v) :: rest => encodeStr k ++ encodeStr v ++ encodeMapEntries rest

/-- Map encoder: count field, then the entries. -/
def encodeMap (m : List (List Nat × List Nat)) : List Nat :=
  u32BE m.length ++ encodeMapEntries m

/-- Read `n` (key, value) text pairs; an absent key or value string is
unwrapped, i.e. panics, matching the treatment of optional strings in
the source decoders. -/
def readMapEntries : Nat → List Nat → DecodeResult (List (List Nat × List Nat))
  | 0, input => .ok input []
  | n + 1, input =>
      match readStr input with
      | .ok rest1 (some k) =>
          match readStr rest1 with
          | .ok rest2 (some v) =>
              match readMapEntries n rest2 with
              | .ok rest3 entries => .ok rest3 ((k, v) :: entries)
              | .err e => .err e
              | .panic => .panic
          | .ok _ none => .panic
          | .err e => .err e
          | .panic => .panic
      | .ok _ none => .panic
      | .err e => .err e
      | .panic => .panic

/-- Modelled from the spec (section 6): `decode_map` reads the 32-bit
count and then that many text pairs. -/
def decode_map (input : List Nat) : DecodeResult (List (List Nat × List Nat)) :=
  match readU32 input with
  | .ok rest n => readMapEntries n rest
  | .err e => .err e
  | .panic => .panic

/-- Correlation identifier: a single 32-bit unsigned value. -/
abbrev CorrelationId := Nat

/-- Modelled from the spec (section 4.2): a correlation identifier is
encoded as a plain fixed-width 32-bit unsigned integer. -/
def correlationIdEncode (c : CorrelationId) : List Nat :=
  u32BE c

/-- Modelled from the spec (section 4.2): `CorrelationId::decode` is the
plain 32-bit read. -/
def correlationIdDecode (input : List Nat) : DecodeResult CorrelationId :=
  readU32 input

/-- Modelled from the spec (section 6): the reported size of a
correlation identifier, four bytes. -/
def correlationIdEncodedSize : Nat := 4

/-- Modelled from the spec (section 4.4): the stable 16-bit key of the
open command.  Its numeric value is declared outside the source file;
the spec fixes only that it is a stable 16-bit identifier. -/
def COMMAND_OPEN : Nat := 21

/-- `OpenCommand` from `open.rs`: correlation id plus target virtual-host
name (its UTF-8 bytes). -/
structure OpenCommand : Type where
  correlation_id : CorrelationId
  virtual_host : List Nat
deriving DecidableEq, Repr

/-- `OpenCommand::encode` (open.rs lines 29-33): the correlation id, then
the virtual host as text. -/
def OpenCommand.encode (c : OpenCommand) : List Nat :=
  correlationIdEncode c.correlation_id ++ encodeStr c.virtual_host

/-- `OpenCommand::encoded_size` (open.rs lines 35-37): the correlation
id's size plus `virtual_host.len()` — note this omits the text length
field. -/
def OpenCommand.encoded_size (c : OpenCommand) : Nat :=
  correlationIdEncodedSize + c.virtual_host.length

/-- `OpenCommand::key` (open.rs lines 41-43). -/
def OpenCommand.key (_ : OpenCommand) : Nat :=
  COMMAND_OPEN

/-- The test-only `OpenCommand::decode` (open.rs lines 90-103): reads the
32-bit correlation id, then a string via `decode_str`, and unwraps the
optional virtual host — an absent string is a panic, not an error. -/
def OpenCommand.decode (input : List Nat) : DecodeResult OpenCommand :=
  match readU32 input with
  | .ok rest1 correlation_id =>
      match readStr rest1 with
      | .ok rest2 (some virtual_host) => .ok rest2 ⟨correlation_id, virtual_host⟩
      | .ok _ none => .panic
      | .err e => .err e
      | .panic => .panic
  | .err e => .err e
  | .panic => .panic

/-- `OpenResponse` from `open.rs`: correlation id, response code, and the
negotiated connection properties (the `HashMap` modelled as its entry
list). -/
structure OpenResponse : Type where
  correlation_id : CorrelationId
  code : ResponseCode
  connection_properties : List (List Nat × List Nat)
deriving DecidableEq, Repr

/-- `OpenResponse::decode` (open.rs lines 61-74): correlation id, then
response code, then the connection-properties map, in that order. -/
def OpenResponse.decode (input : List Nat) : DecodeResult OpenResponse :=
  match correlationIdDecode input with
  | .ok rest1 correlation_id =>
      match ResponseCode.decode rest1 with
      | .ok rest2 response_code =>
          match decode_map rest2 with
          | .ok rest3 connection_properties =>
              .ok rest3 ⟨correlation_id, response_code, connection_properties⟩
          | .err e => .err e
          | .panic => .panic
      | .err e => .err e
      | .panic => .panic
  | .err e => .err e
  | .panic => .panic

/-- The test-only `OpenResponse::encode` (open.rs lines 124-132):
correlation id, code, then the map. -/
def OpenResponse.encode (r : OpenResponse) : List Nat :=
  correlationIdEncode r.correlation_id ++ ResponseCode.encode r.code ++
    encodeMap r.connection_properties

/-- The test-only `OpenResponse::encoded_size` (open.rs lines 134-136):
a stub returning zero. -/
def OpenResponse.encoded_size (_ : OpenResponse) : Nat :=
  0

/-- Modelled from the spec (sections 6 and 7): the frame-level decode.
The transport delivers exactly one frame's payload and requires the
decoder to consume it fully; leftover bytes after a successful
shape-specific decode are the payload-not-fully-consumed error. -/
def frameDecodeOpenResponse (input : List Nat) : DecodeResult OpenResponse :=
  match OpenResponse.decode input with
  | .ok rest value => if rest = [] then .ok [] value else .err .payloadNotConsumed
  | .err e => .err e
  | .panic => .panic

/-- A string value representable in the 16-bit text length field: shorter
than the absent-string sentinel 65535. -/
abbrev strFits (s : List Nat) : Prop :=
  s.length < 65535

/-- A map whose entry count fits the 32-bit count field and whose keys
and values all fit the text length field. -/
abbrev mapFits (m : List (List Nat × List Nat)) : Prop :=
  m.length < 4294967296 ∧ ∀ p ∈ m, strFits p.1 ∧ strFits p.2

/-! ## Helper lemmas: exact consumption of each primitive -/

theorem readU16_append (n : Nat) (s : List Nat) :
    readU16 (u16BE n ++ s) = .ok s (n % 65536) := by
  simp only [u16BE, List.cons_append, List.nil_append, readU16]
  congr 1
  omega

theorem readU32_append (n : Nat) (s : List Nat) :
    readU32 (u32BE n ++ s) = .ok s (n % 4294967296) := by
  simp only [u32BE, List.cons_append, List.nil_append, readU32]
  congr 1
  omega

theorem readBytes_append (s t : List Nat) :
    readBytes s.length (s ++ t) = .ok t s := by
  induction s with
  | nil => rfl
  | cons b rest ih =>
      simp only [List.length_cons, List.cons_append, readBytes, List.append_eq, ih]

theorem readStr_append (s : List Nat) (hs : strFits s) (t : List Nat) :
    readStr (encodeStr s ++ t) = .ok t (some s) := by
  have hmod : s.length % 65536 = s.length := Nat.mod_eq_of_lt (by omega)
  simp only [encodeStr, List.append_assoc, readStr, readU16_append, hmod]
  rw [if_neg (by omega), readBytes_append]

theorem responseCodeFromCode_toCode (c : ResponseCode) :
    responseCodeFromCode c.toCode = some c := by
  cases c <;> rfl

theorem responseCode_decode_append (c : ResponseCode) (s : List Nat) :
    ResponseCode.decode (ResponseCode.encode c ++ s) = .ok s c := by
  have hlt : c.toCode % 65536 = c.toCode := by cases c <;> rfl
  simp only [ResponseCode.encode, ResponseCode.decode, readU16_append, hlt,
    responseCodeFromCode_toCode]

theorem readMapEntries_append (m : List (List Nat × List Nat))
    (hm : ∀ p ∈ m, strFits p.1 ∧ strFits p.2) (s : List Nat) :
    readMapEntries m.length (encodeMapEntries m ++ s) = .ok s m := by
  induction m with
  | nil => rfl
  | cons kv rest ih =>
      obtain ⟨k, v⟩ := kv
      have hk : strFits k := (hm (k, v) (by simp)).1
      have hv : strFits v := (hm (k, v) (by simp)).2
      simp only [List.length_cons, encodeMapEntries, List.append_assoc, readMapEntries,
        readStr_append k hk, readStr_append v hv,
        ih (fun p hp => hm p (List.mem_cons_of_mem _ hp))]

theorem decode_map_append (m : List (List Nat × List Nat)) (hm : mapFits m) (s : List Nat) :
    decode_map (encodeMap m ++ s) = .ok s m := by
  have hmod : m.length % 4294967296 = m.length := Nat.mod_eq_of_lt hm.1
  simp only [encodeMap, List.append_assoc, decode_map, readU32_append, hmod,
    readMapEntries_append m hm.2]

theorem openCommand_decode_append (c : OpenCommand) (hc : c.correlation_id < 4294967296)
    (hs : strFits c.virtual_host) (s : List Nat) :
    OpenCommand.decode (OpenCommand.encode c ++ s) = .ok s c := by
  obtain ⟨cid, vh⟩ := c
  simp only at hc hs
  simp only [OpenCommand.encode, correlationIdEncode, List.append_assoc,
    OpenCommand.decode, readU32_append, Nat.mod_eq_of_lt hc, readStr_append vh hs s]

theorem openResponse_decode_append (r : OpenResponse) (hc : r.correlation_id < 4294967296)
    (hm : mapFits r.connection_properties) (s : List Nat) :
    OpenResponse.decode (OpenResponse.encode r ++ s) = .ok s r := by
  obtain ⟨cid, code, props⟩ := r
  simp only at hc hm
  simp only [OpenResponse.encode, correlationIdEncode, List.append_assoc,
    OpenResponse.decode, correlationIdDecode, readU32_append, Nat.mod_eq_of_lt hc,
    responseCode_decode_append, decode_map_append props hm s]

/-! ## Helper lemmas: truncation -/

theorem split_append {a b c d : List Nat} (h : a ++ b = c ++ d) (hl : c.length ≤ a.length) :
    ∃ e, a = c ++ e ∧ d = e ++ b := by
  induction c generalizing a with
  | nil => exact ⟨a, rfl, h.symm⟩
  | cons x c' ih =>
      cases a with
      | nil => simp at hl
      | cons y a' =>
          simp only [List.cons_append, List.cons.injEq] at h
          obtain ⟨e, he1, he2⟩ := ih h.2 (by simp only [List.length_cons] at hl; omega)
          exact ⟨e, by simp [h.1, he1], he2⟩

theorem readU16_trunc (input : List Nat) (h : input.length < 2) :
    readU16 input = .err .insufficientData := by
  rcases input with _ | ⟨x, _ | ⟨y, q⟩⟩
  · rfl
  · rfl
  · simp only [List.length_cons] at h; omega

theorem readU32_trunc (input : List Nat) (h : input.length < 4) :
    readU32 input = .err .insufficientData := by
  rcases input with _ | ⟨a, _ | ⟨b, _ | ⟨c, _ | ⟨d, q⟩⟩⟩⟩
  · rfl
  · rfl
  · rfl
  · rfl
  · simp only [List.length_cons] at h; omega

theorem readBytes_trunc (n : Nat) (input : List Nat) (h : input.length < n) :
    readBytes n input = .err .insufficientData := by
  induction input generalizing n with
  | nil =>
      cases n with
      | zero => omega
      | succ m => rfl
  | cons b rest ih =>
      cases n with
      | zero => omega
      | succ m =>
          have hr : readBytes m rest = .err .insufficientData :=
            ih m (by simp only [List.length_cons] at h; omega)
          simp [readBytes, hr]

theorem readStr_trunc (s : List Nat) (hs : strFits s) (p t : List Nat)
    (h : p ++ t = encodeStr s) (ht : t ≠ []) :
    readStr p = .err .insufficientData := by
  rcases p with _ | ⟨x, _ | ⟨y, q⟩⟩
  · rfl
  · rfl
  · have hx : x = s.length / 256 % 256 ∧ y = s.length % 256 ∧ q ++ t = s := by
      simpa [encodeStr, u16BE] using h
    obtain ⟨rfl, rfl, hqt⟩ := hx
    have hql : q.length < s.length := by
      have hlen := congrArg List.length hqt
      cases t with
      | nil => exact absurd rfl ht
      | cons z zs => simp only [List.length_append, List.length_cons] at hlen; omega
    have hval : s.length / 256 % 256 * 256 + s.length % 256 = s.length := by
      simp only [strFits] at hs; omega
    simp only [readStr, readU16, hval]
    rw [if_neg (by simp only [strFits] at hs; omega)]
    simp [readBytes_trunc s.length q hql]

theorem readMapEntries_trunc (m : List (List Nat × List Nat))
    (hm : ∀ q ∈ m, strFits q.1 ∧ strFits q.2) (p t : List Nat)
    (h : p ++ t = encodeMapEntries m) (ht : t ≠ []) :
    readMapEntries m.length p = .err .insufficientData := by
  induction m generalizing p t with
  | nil =>
      simp only [encodeMapEntries, List.append_eq_nil] at h
      exact absurd h.2 ht
  | cons kv rest ih =>
      obtain ⟨k, v⟩ := kv
      have hk : strFits k := (hm (k, v) (by simp)).1
      have hv : strFits v := (hm (k, v) (by simp)).2
      simp only [encodeMapEntries, List.append_assoc] at h
      by_cases hp : (encodeStr k).length ≤ p.length
      · obtain ⟨p1, hp1, hq1⟩ := split_append h hp
        subst hp1
        by_cases hp' : (encodeStr v).length ≤ p1.length
        · obtain ⟨p2, hp2, hq2⟩ := split_append hq1.symm hp'
          subst hp2
          have hrec : readMapEntries rest.length p2 = .err .insufficientData :=
            ih (fun q hq => hm q (List.mem_cons_of_mem _ hq)) p2 t hq2.symm ht
          simp [List.length_cons, readMapEntries, readStr_append k hk,
            readStr_append v hv, hrec]
        · obtain ⟨e, he1, he2⟩ :=
            split_append hq1 (by omega)
          have hne : e ≠ [] := by
            intro hcon
            subst hcon
            simp only [List.append_nil] at he1
            have hlen := congrArg List.length he1
            omega
          have hstr : readStr p1 = .err .insufficientData :=
            readStr_trunc v hv p1 e (by rw [← he1]) hne
          simp [List.length_cons, readMapEntries, readStr_append k hk, hstr]
      · obtain ⟨e, he1, he2⟩ := split_append h.symm (by omega)
        have hne : e ≠ [] := by
          intro hcon
          subst hcon
          simp only [List.append_nil] at he1
          have hlen := congrArg List.length he1
          omega
        have hstr : readStr p = .err .insufficientData :=
          readStr_trunc k hk p e (by rw [← he1]) hne
        simp [List.length_cons, readMapEntries, hstr]

theorem decode_map_trunc (m : List (List Nat × List Nat)) (hm : mapFits m)
    (p t : List Nat) (h : p ++ t = encodeMap m) (ht : t ≠ []) :
    decode_map p = .err .insufficientData := by
  simp only [encodeMap] at h
  by_cases hp : 4 ≤ p.length
  · obtain ⟨p1, hp1, hq1⟩ := split_append h (by simp [u32BE]; omega)
    subst hp1
    have hrec : readMapEntries m.length p1 = .err .insufficientData :=
      readMapEntries_trunc m hm.2 p1 t hq1.symm ht
    have hmod : m.length % 4294967296 = m.length := Nat.mod_eq_of_lt hm.1
    simp [decode_map, readU32_append, hmod, hrec]
  · simp [decode_map, readU32_trunc p (by omega)]

theorem responseCode_decode_trunc (p : List Nat) (h : p.length < 2) :
    ResponseCode.decode p = .err .insufficientData := by
  simp [ResponseCode.decode, readU16_trunc p h]

theorem openCommand_decode_trunc (c : OpenCommand) (hs : strFits c.virtual_host)
    (p t : List Nat) (h : p ++ t = OpenCommand.encode c) (ht : t ≠ []) :
    OpenCommand.decode p = .err .insufficientData := by
  obtain ⟨cid, vh⟩ := c
  simp only at hs
  simp only [OpenCommand.encode, correlationIdEncode] at h
  by_cases hp : 4 ≤ p.length
  · obtain ⟨p1, hp1, hq1⟩ := split_append h (by simp [u32BE]; omega)
    subst hp1
    have hstr : readStr p1 = .err .insufficientData :=
      readStr_trunc vh hs p1 t hq1.symm ht
    simp [OpenCommand.decode, readU32_append, hstr]
  · simp [OpenCommand.decode, readU32_trunc p (by omega)]

theorem openResponse_decode_trunc (r : OpenResponse)
    (hm : mapFits r.connection_properties) (p t : List Nat)
    (h : p ++ t = OpenResponse.encode r) (ht : t ≠ []) :
    OpenResponse.decode p = .err .insufficientData := by
  obtain ⟨cid, code, props⟩ := r
  simp only at hm
  simp only [OpenResponse.encode, correlationIdEncode, List.append_assoc] at h
  by_cases hp : 4 ≤ p.length
  · obtain ⟨p1, hp1, hq1⟩ := split_append h (by simp [u32BE]; omega)
    subst hp1
    by_cases hp' : 2 ≤ p1.length
    · obtain ⟨p2, hp2, hq2⟩ :=
        split_append hq1.symm (by simp [ResponseCode.encode, u16BE]; omega)
      subst hp2
      have hrec : decode_map p2 = .err .insufficientData :=
        decode_map_trunc props hm p2 t hq2.symm ht
      simp [OpenResponse.decode, correlationIdDecode, readU32_append,
        responseCode_decode_append, hrec]
    · simp [OpenResponse.decode, correlationIdDecode, readU32_append,
        responseCode_decode_trunc p1 (by omega)]
  · simp [OpenResponse.decode, correlationIdDecode, readU32_trunc p (by omega)]

/-! ## Claims -/

/-- C1: the claim that `encoded_size` equals the exact byte length of
`encode`'s output fails on the code.  `OpenCommand::encoded_size` omits
the two-byte text length field (8 reported vs 10 written for correlation
id 1 and virtual host "test"), and the test-only
`OpenResponse::encoded_size` is a stub returning 0 (vs 22 bytes written
for the test response). -/
theorem open_encoded_size_mismatch :
    OpenCommand.encoded_size ⟨1, [116, 101, 115, 116]⟩ = 8 ∧
    (OpenCommand.encode ⟨1, [116, 101, 115, 116]⟩).length = 10 ∧
    OpenResponse.encoded_size ⟨1, .Ok, [([116, 101, 115, 116], [116, 101, 115, 116])]⟩ = 0 ∧
    (OpenResponse.encode
        ⟨1, .Ok, [([116, 101, 115, 116], [116, 101, 115, 116])]⟩).length = 22 := by
  decide

/-- C2: round-trip — decoding the bytes produced by encoding an
`OpenCommand` or `OpenResponse` yields the value again with an empty
remainder, for every value whose correlation id fits 32 bits and whose
strings and map fit their wire fields. -/
theorem open_roundtrip (c : OpenCommand) (r : OpenResponse)
    (hc : c.correlation_id < 4294967296) (hs : strFits c.virtual_host)
    (hr : r.correlation_id < 4294967296) (hm : mapFits r.connection_properties) :
    OpenCommand.decode (OpenCommand.encode c) = .ok [] c ∧
    OpenResponse.decode (OpenResponse.encode r) = .ok [] r := by
  constructor
  · simpa using openCommand_decode_append c hc hs []
  · simpa using openResponse_decode_append r hr hm []

/-- Witness for C2 at the values of the source's own tests: correlation
id 1, virtual host "test", property map containing ("test", "test"). -/
theorem open_roundtrip_witness :
    ((1 : Nat) < 4294967296 ∧ strFits [116, 101, 115, 116] ∧
      mapFits [([116, 101, 115, 116], [116, 101, 115, 116])]) ∧
    OpenCommand.decode (OpenCommand.encode ⟨1, [116, 101, 115, 116]⟩) =
      .ok [] ⟨1, [116, 101, 115, 116]⟩ ∧
    OpenResponse.decode
        (OpenResponse.encode ⟨1, .Ok, [([116, 101, 115, 116], [116, 101, 115, 116])]⟩) =
      .ok [] ⟨1, .Ok, [([116, 101, 115, 116], [116, 101, 115, 116])]⟩ :=
  ⟨⟨by decide, by decide, by decide⟩,
    open_roundtrip ⟨1, [116, 101, 115, 116]⟩
      ⟨1, .Ok, [([116, 101, 115, 116], [116, 101, 115, 116])]⟩
      (by decide) (by decide) (by decide) (by decide)⟩

/-- C3: appending one extra byte after a complete, valid open-response
encoding makes the frame-level decode report the payload-not-fully-
consumed error rather than a value with a non-empty remainder. -/
theorem open_response_trailing_byte (r : OpenResponse) (b : Nat)
    (hr : r.correlation_id < 4294967296) (hm : mapFits r.connection_properties) :
    frameDecodeOpenResponse (OpenResponse.encode r ++ [b]) = .err .payloadNotConsumed := by
  simp [frameDecodeOpenResponse, openResponse_decode_append r hr hm [b]]

/-- Witness for C3: the test response with one trailing zero byte. -/
theorem open_response_trailing_byte_witness :
    ((1 : Nat) < 4294967296 ∧ mapFits [([116, 101, 115, 116], [116, 101, 115, 116])]) ∧
    frameDecodeOpenResponse
        (OpenResponse.encode ⟨1, .Ok, [([116, 101, 115, 116], [116, 101, 115, 116])]⟩ ++ [0]) =
      .err .payloadNotConsumed :=
  ⟨⟨by decide, by decide⟩,
    open_response_trailing_byte ⟨1, .Ok, [([116, 101, 115, 116], [116, 101, 115, 116])]⟩ 0
      (by decide) (by decide)⟩

/-- C4: decoding any strict prefix of a valid `OpenCommand` or
`OpenResponse` encoding yields the insufficient-data error — never a
panic and never a decoded value. -/
theorem open_truncation_insufficient (c : OpenCommand) (r : OpenResponse)
    (hs : strFits c.virtual_host) (hm : mapFits r.connection_properties) :
    (∀ p t, p ++ t = OpenCommand.encode c → t ≠ [] →
      OpenCommand.decode p = .err .insufficientData) ∧
    (∀ p t, p ++ t = OpenResponse.encode r → t ≠ [] →
      OpenResponse.decode p = .err .insufficientData) :=
  ⟨fun p t h ht => openCommand_decode_trunc c hs p t h ht,
    fun p t h ht => openResponse_decode_trunc r hm p t h ht⟩

/-- Witness for C4: the first 3 bytes of the encoded test request and
the first 5 bytes of the encoded test response both yield the
insufficient-data error. -/
theorem open_truncation_insufficient_witness :
    (strFits [116, 101, 115, 116] ∧ mapFits [([116, 101, 115, 116], [116, 101, 115, 116])]) ∧
    OpenCommand.decode [0, 0, 0] = .err .insufficientData ∧
    OpenResponse.decode [0, 0, 0, 1, 0] = .err .insufficientData :=
  ⟨⟨by decide, by decide⟩,
    (open_truncation_insufficient ⟨1, [116, 101, 115, 116]⟩
        ⟨1, .Ok, [([116, 101, 115, 116], [116, 101, 115, 116])]⟩ (by decide) (by decide)).1
      [0, 0, 0] [1, 0, 4, 116, 101, 115, 116] (by decide) (by decide),
    (open_truncation_insufficient ⟨1, [116, 101, 115, 116]⟩
        ⟨1, .Ok, [([116, 101, 115, 116], [116, 101, 115, 116])]⟩ (by decide) (by decide)).2
      [0, 0, 0, 1, 0] [1, 0, 0, 0, 1, 0, 4, 116, 101, 115, 116, 0, 4, 116, 101, 115, 116]
      (by decide) (by decide)⟩

/-- C5: a response-code field holding a numeric value outside the known
table makes `OpenResponse::decode` return the unknown-response-code
error carrying that value — never a default variant. -/
theorem open_response_unknown_code (cid code : Nat) (rest : List Nat)
    (hcode : code < 65536) (hnone : responseCodeFromCode code = none) :
    OpenResponse.decode (u32BE cid ++ (u16BE code ++ rest)) =
      .err (.unknownResponseCode code) := by
  simp [OpenResponse.decode, correlationIdDecode, readU32_append, ResponseCode.decode,
    readU16_append, Nat.mod_eq_of_lt hcode, hnone]

/-- Witness for C5: code value 0 is outside the table. -/
theorem open_response_unknown_code_witness :
    ((0 : Nat) < 65536 ∧ responseCodeFromCode 0 = none) ∧
    OpenResponse.decode (u32BE 1 ++ (u16BE 0 ++ [])) = .err (.unknownResponseCode 0) :=
  ⟨⟨by decide, by decide⟩, open_response_unknown_code 1 0 [] (by decide) (by decide)⟩

/-- C6: decoding consumes exactly the bytes of the value's own encoding:
for any byte suffix `s`, decoding `encode x ++ s` returns `x` with
exactly the remainder `s`, for the response decoder and the test-only
request decoder alike. -/
theorem open_decode_exact_consumption (c : OpenCommand) (r : OpenResponse) (s : List Nat)
    (hc : c.correlation_id < 4294967296) (hs : strFits c.virtual_host)
    (hr : r.correlation_id < 4294967296) (hm : mapFits r.connection_properties) :
    OpenCommand.decode (OpenCommand.encode c ++ s) = .ok s c ∧
    OpenResponse.decode (OpenResponse.encode r ++ s) = .ok s r :=
  ⟨openCommand_decode_append c hc hs s, openResponse_decode_append r hr hm s⟩

/-- Witness for C6: the test values followed by the suffix [9, 9]. -/
theorem open_decode_exact_consumption_witness :
    ((1 : Nat) < 4294967296 ∧ strFits [116, 101, 115, 116] ∧
      mapFits [([116, 101, 115, 116], [116, 101, 115, 116])]) ∧
    OpenCommand.decode (OpenCommand.encode ⟨1, [116, 101, 115, 116]⟩ ++ [9, 9]) =
      .ok [9, 9] ⟨1, [116, 101, 115, 116]⟩ ∧
    OpenResponse.decode
        (OpenResponse.encode ⟨1, .Ok, [([116, 101, 115, 116], [116, 101, 115, 116])]⟩ ++ [9, 9]) =
      .ok [9, 9] ⟨1, .Ok, [([116, 101, 115, 116], [116, 101, 115, 116])]⟩ :=
  ⟨⟨by decide, by decide, by decide⟩,
    open_decode_exact_consumption ⟨1, [116, 101, 115, 116]⟩
      ⟨1, .Ok, [([116, 101, 115, 116], [116, 101, 115, 116])]⟩ [9, 9]
      (by decide) (by decide) (by decide) (by decide)⟩

/-- C7: `OpenResponse::decode` reads its input in the fixed prefix order
correlation identifier, then response code, then the connection
properties map — a buffer laid out as those three encodings followed by
a suffix decodes to exactly those three fields with that suffix left
over. -/
theorem open_response_field_order (cid : Nat) (code : ResponseCode)
    (props : List (List Nat × List Nat)) (s : List Nat)
    (hc : cid < 4294967296) (hm : mapFits props) :
    OpenResponse.decode (u32BE cid ++ (ResponseCode.encode code ++ (encodeMap props ++ s))) =
      .ok s ⟨cid, code, props⟩ := by
  simp [OpenResponse.decode, correlationIdDecode, readU32_append, Nat.mod_eq_of_lt hc,
    responseCode_decode_append, decode_map_append props hm s]

/-- Witness for C7 at correlation id 7, access-refused, empty map. -/
theorem open_response_field_order_witness :
    ((7 : Nat) < 4294967296 ∧ mapFits ([] : List (List Nat × List Nat))) ∧
    OpenResponse.decode (u32BE 7 ++ (ResponseCode.encode .AccessRefused ++ (encodeMap [] ++ [3]))) =
      .ok [3] ⟨7, .AccessRefused, []⟩ :=
  ⟨⟨by decide, by decide⟩,
    open_response_field_order 7 .AccessRefused [] [3] (by decide) (by decide)⟩

/-- C8: `OpenCommand::encode` writes the correlation identifier first and
then the virtual host as text — its length field followed by its bytes —
and nothing else. -/
theorem open_command_encode_layout (c : OpenCommand) :
    OpenCommand.encode c =
      u32BE c.correlation_id ++ (u16BE c.virtual_host.length ++ c.virtual_host) := by
  simp [OpenCommand.encode, correlationIdEncode, encodeStr]

/-- C9: `OpenCommand::key` returns the stable identifier `COMMAND_OPEN`
regardless of the correlation id and virtual-host fields. -/
theorem open_command_key_stable (c : OpenCommand) :
    OpenCommand.key c = COMMAND_OPEN :=
  rfl

/-- C10: the test-only `OpenCommand::decode` panics on a well-formed,
non-truncated input whose string field decodes to an absent (null)
string: the length field 0xFFFF makes `decode_str` yield `None`, and
the `unwrap` on the virtual host panics instead of returning a value or
a typed decode error. -/
theorem open_command_decode_null_vhost_panics :
    readStr [255, 255] = .ok [] none ∧
    OpenCommand.decode [0, 0, 0, 1, 255, 255] = .panic := by
  decide
